import Mathlib

/-!
Shallow embedding of `src/app/parse.py`, a Selenium-based e-commerce scraper.

Modelling conventions:
* A DOM element (`Elem`) carries its visible text, its attribute list and its
  visibility flag.  A product card (`ProductElement`) and a whole page
  (`PageState`) expose the two Selenium query methods used by the code:
  `find_element` (modelled as a `String → Option Elem` function, `none` meaning
  the query raises `NoSuchElementException`) and `find_elements`
  (`String → List Elem`).
* Python exceptions are modelled with `Except ScrapeError`; the `try/except
  NoSuchElementException` blocks of the source become matches that turn a
  `noSuchElement` error into the fallback value and re-raise everything else.
* Python builtins `str.split`, `int`, `float` and `str.replace` are modelled
  over character lists; `float` parsing is modelled exactly over `ℚ`
  (sign, digits, optional fractional part — the exponent/inf/nan forms that
  never arise for price strings are not modelled).
* The `while has_next_page: navigate_to_next_page` loop is modelled as a
  fuel-bounded recursion over an abstract page-transition function `step`
  (the effect of clicking the "load more" control); `none` is returned when
  the fuel runs out, i.e. when the loop has not terminated within `fuel`
  iterations.
-/

namespace EcommerceScraping

/-- Errors a scrape step can raise: Selenium's `NoSuchElementException`
(tagged with the class name that was looked up), Python's `IndexError`
(from `[0]` on an empty list) and `ValueError` (from `int()` / `float()`). -/
inductive ScrapeError where
  | noSuchElement (className : String)
  | indexError
  | valueError (s : String)
deriving DecidableEq

/-- A DOM element as the scraper observes it: its `.text`, its HTML
attributes, and whether `is_displayed()` returns true. -/
structure Elem where
  text : String
  attrs : List (String × String)
  displayed : Bool
deriving DecidableEq

/-- Association-list lookup; models reading one attribute of an element. -/
def alookup (k : String) : List (String × String) → Option String
  | [] => none
  | (a, v) :: l => if a = k then some v else alookup k l

/-- Models Selenium `element.get_attribute(name)`: the attribute's value, or
`None` when the element does not carry it. -/
def get_attribute (e : Elem) (name : String) : Option String :=
  alookup name e.attrs

/-- Models Selenium `find_element(By.CLASS_NAME, className)`: the query result
is given by the model, and an absent element raises `NoSuchElementException`. -/
def find_element (result : Option Elem) (className : String) : Except ScrapeError Elem :=
  match result with
  | some e => .ok e
  | none => .error (.noSuchElement className)

/-- A product card (`class="thumbnail"`): `byClassName` models
`find_element(By.CLASS_NAME, ·)` inside the card (`none` = not found) and
`byCss` models `find_elements(By.CSS_SELECTOR, ·)` inside the card. -/
structure ProductElement where
  byClassName : String → Option Elem
  byCss : String → List Elem

/-- The numeric value of a digit string, most significant digit first. -/
def digitsVal (ds : List Char) : Nat :=
  ds.foldl (fun a c => 10 * a + (c.toNat - 48)) 0

/-- Strips leading and trailing whitespace from a character list; models the
whitespace tolerance of Python's `int()` and `float()`. -/
def stripWs (cs : List Char) : List Char :=
  ((cs.dropWhile Char.isWhitespace).reverse.dropWhile Char.isWhitespace).reverse

/-- Accumulator worker for `wsSplit`: `acc` holds the characters of the token
currently being read, in reverse. -/
def wsSplitAux : List Char → List Char → List String
  | [], acc => if acc.isEmpty then [] else [String.mk acc.reverse]
  | c :: cs, acc =>
    if c.isWhitespace then
      if acc.isEmpty then wsSplitAux cs [] else String.mk acc.reverse :: wsSplitAux cs []
    else wsSplitAux cs (c :: acc)

/-- Models Python `str.split()` with no argument: splits on runs of
whitespace and never yields empty tokens. -/
def wsSplit (s : String) : List String :=
  wsSplitAux s.data []

/-- Nonempty all-digit character list parsed as a `Nat`; otherwise a
`ValueError` carrying the original string. -/
def pyIntDigits (cs : List Char) (orig : String) : Except ScrapeError Int :=
  if cs ≠ [] ∧ cs.all Char.isDigit then .ok (digitsVal cs) else .error (.valueError orig)

/-- Models Python `int(s)` on a decimal string: optional surrounding
whitespace, optional sign, then decimal digits; anything else raises
`ValueError`.  (Underscored literals and non-decimal bases never arise
here and are not modelled.) -/
def pyInt (s : String) : Except ScrapeError Int :=
  match stripWs s.data with
  | [] => .error (.valueError s)
  | c :: ds =>
    if c = '-' then (pyIntDigits ds s).map (fun n => -n)
    else if c = '+' then pyIntDigits ds s
    else pyIntDigits (c :: ds) s

/-- Unsigned decimal numeral with optional fractional part, valued in `ℚ`:
`digits`, `digits.digits`, `digits.` or `.digits`. -/
def parseUnsignedFloat (cs : List Char) : Option ℚ :=
  let ip := cs.takeWhile Char.isDigit
  let rest := cs.dropWhile Char.isDigit
  match rest with
  | [] => if ip = [] then none else some ((digitsVal ip : ℚ))
  | c :: frac =>
    if c = '.' ∧ frac.all Char.isDigit ∧ (ip ≠ [] ∨ frac ≠ []) then
      some ((digitsVal ip : ℚ) + (digitsVal frac : ℚ) / (10 : ℚ) ^ frac.length)
    else none

/-- Models Python `float(s)` for the decimal strings that occur as prices:
optional surrounding whitespace, optional sign, digits with an optional
fractional part, valued exactly in `ℚ`; anything else raises `ValueError`.
(Exponent, `inf` and `nan` forms never arise here and are not modelled.) -/
def pyFloat (s : String) : Except ScrapeError ℚ :=
  match stripWs s.data with
  | [] => .error (.valueError s)
  | c :: ds =>
    match
      (if c = '-' then (parseUnsignedFloat ds).map Neg.neg
       else if c = '+' then parseUnsignedFloat ds
       else parseUnsignedFloat (c :: ds)) with
    | some q => .ok q
    | none => .error (.valueError s)

/-- Models `price_text.replace("$", "")` — `str.replace` with a
single-character pattern and empty replacement removes every occurrence
of that character. -/
def removeDollar (s : String) : String :=
  String.mk (s.data.filter (fun c => c ≠ '$'))

/-- Models `get_title`: `find_element(By.CLASS_NAME, "title")` (raising when
absent) followed by `get_attribute("title")`. -/
def get_title (p : ProductElement) : Except ScrapeError (Option String) := do
  let e ← find_element (p.byClassName "title") "title"
  pure (get_attribute e "title")

/-- Models `get_price`: `find_element(By.CLASS_NAME, "price")` (raising when
absent), then `float(text.replace("$", ""))`. -/
def get_price (p : ProductElement) : Except ScrapeError ℚ := do
  let e ← find_element (p.byClassName "price") "price"
  pyFloat (removeDollar e.text)

/-- Models `get_description`: `find_element(By.CLASS_NAME, "description")`
(raising when absent), then `.text`. -/
def get_description (p : ProductElement) : Except ScrapeError String := do
  let e ← find_element (p.byClassName "description") "description"
  pure e.text

/-- Models `get_rating`:
`len(find_elements(By.CSS_SELECTOR, "p:nth-of-type(2) > span"))`.
`find_elements` never raises, so this is a total function. -/
def get_rating (p : ProductElement) : Int :=
  ((p.byCss "p:nth-of-type(2) > span").length : Int)

/-- The `try` body of `get_review_count`:
`int(find_element(By.CLASS_NAME, "review-count").text.split()[0])`. -/
def get_review_count_body (p : ProductElement) : Except ScrapeError Int := do
  let e ← find_element (p.byClassName "review-count") "review-count"
  match wsSplit e.text with
  | [] => .error .indexError
  | tok :: _ => pyInt tok

/-- Models `get_review_count`: the `try` body with
`except NoSuchElementException: num_of_reviews = 0`; every other
exception (IndexError, ValueError) propagates. -/
def get_review_count (p : ProductElement) : Except ScrapeError Int :=
  match get_review_count_body p with
  | .error (.noSuchElement _) => .ok 0
  | r => r

/-- The state of the page currently loaded in the driver: `byClassName`
models driver-level `find_element(By.CLASS_NAME, ·)` (`none` = not found)
and `thumbnails` the list returned by
`find_elements(By.CLASS_NAME, "thumbnail")`. -/
structure PageState where
  byClassName : String → Option Elem
  thumbnails : List ProductElement

/-- Models `accept_cookies_if_asked`: look up the `acceptCookies` button,
click it when displayed (the click has no observable effect in the model),
and swallow `NoSuchElementException`. -/
def accept_cookies_if_asked (s : PageState) : Except ScrapeError Unit :=
  match find_element (s.byClassName "acceptCookies") "acceptCookies" with
  | .ok _ => .ok ()
  | .error (.noSuchElement _) => .ok ()
  | .error e => .error e

/-- Models `has_next_page`: `is_displayed()` of the
`ecomerce-items-scroll-more` control, with `NoSuchElementException`
swallowed into `False`. -/
def has_next_page (s : PageState) : Except ScrapeError Bool :=
  match find_element (s.byClassName "ecomerce-items-scroll-more") "ecomerce-items-scroll-more" with
  | .ok b => .ok b.displayed
  | .error (.noSuchElement _) => .ok false
  | .error e => .error e

/-- The boolean `has_next_page` computes; `has_next_page` never raises, so
the two agree (`has_next_page_eq`). -/
def hasNextPageB (s : PageState) : Bool :=
  match s.byClassName "ecomerce-items-scroll-more" with
  | some b => b.displayed
  | none => false

/-- Models `navigate_to_next_page`: when the control exists the click fires
and the page mutates to `step s` (the `time.sleep(0.5)` pause has no model
content); when it is absent the `NoSuchElementException` is swallowed and
`False` is returned with the page unchanged. -/
def navigate_to_next_page (step : PageState → PageState) (s : PageState) :
    Bool × PageState :=
  match s.byClassName "ecomerce-items-scroll-more" with
  | some _ => (true, step s)
  | none => (false, s)

/-- Sequential `Except`-valued map; models the Python `for` loop that builds
`products` by appending one record per element and aborts the whole function
at the first exception. -/
def mapExcept (f : α → Except ScrapeError β) : List α → Except ScrapeError (List β)
  | [] => .ok []
  | a :: l => do
    let b ← f a
    let bs ← mapExcept f l
    pure (b :: bs)

/-- One scraped product record, mirroring the `Product` dataclass.  `title`
is an `Option` because `get_attribute` can return `None`; `price` is the
exact rational the float parser produced. -/
structure Product where
  title : Option String
  description : String
  price : ℚ
  rating : Int
  num_of_reviews : Int
deriving DecidableEq

/-- The loop body of lines 41–53: extract the five fields in source order
and build a `Product`. -/
def extractProduct (pe : ProductElement) : Except ScrapeError Product := do
  let title ← get_title pe
  let price ← get_price pe
  let description ← get_description pe
  let rating := get_rating pe
  let review_count ← get_review_count pe
  pure ⟨title, description, price, rating, review_count⟩

/-- Models `while has_next_page(driver): navigate_to_next_page(driver)` as a
fuel-bounded recursion; `none` means the loop did not terminate within
`fuel` iterations. -/
def paginationLoop (step : PageState → PageState) : Nat → PageState → Option PageState
  | 0, s => if hasNextPageB s then none else some s
  | n + 1, s =>
    if hasNextPageB s then paginationLoop step n (navigate_to_next_page step s).2
    else some s

/-- Models `parse_products_on_page` from the `accept_cookies_if_asked` call
onward: `s` is the page state right after `driver.get(url)`, `step` the
effect of one "load more" click.  The thumbnails are read once, after the
pagination loop has exited. -/
def parse_products_on_page (step : PageState → PageState) (fuel : Nat) (s : PageState) :
    Option (Except ScrapeError (List Product)) :=
  match accept_cookies_if_asked s with
  | .error e => some (.error e)
  | .ok _ =>
    (paginationLoop step fuel s).map (fun s2 => mapExcept extractProduct s2.thumbnails)

/-- The base URL of the test site. -/
def BASE_URL : String := "https://webscraper.io/test-sites/"

/-- Models `urllib.parse.urljoin` for the only case the catalog uses: a
relative path joined onto a base URL that ends in a slash appends the path. -/
def urljoinRel (base rel : String) : String := base ++ rel

/-- The page catalog `PAGE_URLS`, an insertion-ordered mapping from the six
category labels to their URLs. -/
def PAGE_URLS : List (String × String) :=
  [("home", urljoinRel BASE_URL "e-commerce/more/"),
   ("computers", urljoinRel BASE_URL "e-commerce/more/computers"),
   ("laptops", urljoinRel BASE_URL "e-commerce/more/computers/laptops"),
   ("tablets", urljoinRel BASE_URL "e-commerce/more/computers/tablets"),
   ("phones", urljoinRel BASE_URL "e-commerce/more/phones"),
   ("touch", urljoinRel BASE_URL "e-commerce/more/phones/touch")]

/-- Observable browser-session events of one run of `scrape_products`. -/
inductive Event where
  | openSession
  | navigate (url : String)
  | quitSession
deriving DecidableEq

/-- A computation's event trace together with its outcome. -/
structure TraceResult (α : Type) where
  trace : List Event
  result : Except ScrapeError α

/-- The `try` body of `scrape_products`: visit each catalog entry in order,
parse it (`parse` abstracts `parse_products_on_page` at that URL) and
accumulate the results; the first exception aborts the traversal. -/
def scrapeBody (parse : String → Except ScrapeError (List Product)) :
    List (String × String) → TraceResult (List (String × List Product))
  | [] => ⟨[], .ok []⟩
  | (name, url) :: rest =>
    match parse url with
    | .error e => ⟨[.navigate url], .error e⟩
    | .ok ps =>
      let r := scrapeBody parse rest
      ⟨.navigate url :: r.trace, r.result.map (fun tl => (name, ps) :: tl)⟩

/-- Models Python `try: body finally: fin` at the trace level: the finally
events run whether the body finished or raised, and the body's outcome is
kept. -/
def tryFinallyTrace (body : TraceResult α) (fin : List Event) : TraceResult α :=
  ⟨body.trace ++ fin, body.result⟩

/-- Models `scrape_products`: open one driver, run the catalog traversal
inside `try`, and `driver.quit()` in `finally`. -/
def scrape_products (parse : String → Except ScrapeError (List Product)) :
    TraceResult (List (String × List Product)) :=
  let body := scrapeBody parse PAGE_URLS
  ⟨.openSession :: (tryFinallyTrace body [.quitSession]).trace,
   (tryFinallyTrace body [.quitSession]).result⟩

/-- The dataclass field names in definition order, as
`PRODUCT_FIELDS = [field.name for field in fields(Product)]` computes them. -/
def PRODUCT_FIELDS : List String :=
  ["title", "description", "price", "rating", "num_of_reviews"]

/-- Minimal quoting of the csv `excel` dialect: a field is quoted only when
it contains the delimiter, the quote character or a line-break character,
and embedded quote characters are doubled. -/
def csvQuote (s : String) : String :=
  if s.data.any (fun c => c = ',' || c = '"' || c = '\n' || c = '\r') then
    "\"" ++ String.mk ((s.data.map (fun c => if c = '"' then ['"', '"'] else [c])).flatten) ++ "\""
  else s

/-- Python `str` rendering of the cell values the writer receives.  `None`
(an absent title attribute) is written by the csv module as the empty
string; numbers are rendered from the exact model values. -/
def cellOfOpt (o : Option String) : String :=
  match o with
  | some s => s
  | none => ""

/-- The dict literal passed to `writer.writerow` for one product, as an
insertion-ordered association list. -/
def productDict (p : Product) : List (String × String) :=
  [("title", cellOfOpt p.title),
   ("description", p.description),
   ("price", toString p.price),
   ("rating", toString p.rating),
   ("num_of_reviews", toString p.num_of_reviews)]

/-- Models `csv.DictWriter.writerow`: the cells are read from the dict in
`fieldnames` order (missing keys default to the empty string), quoted
minimally, and joined with the delimiter. -/
def dictWriterRow (fieldnames : List String) (d : List (String × String)) : String :=
  String.intercalate "," (fieldnames.map (fun f => csvQuote ((alookup f d).getD "")))

/-- The header row `writeheader` emits: the field names themselves written
as a row. -/
def headerLine : String :=
  String.intercalate "," (PRODUCT_FIELDS.map csvQuote)

/-- All rows of one category's file, header first. -/
def fileLines (products : List Product) : List String :=
  headerLine :: products.map (fun p => dictWriterRow PRODUCT_FIELDS (productDict p))

/-- The byte content of one category's file: every row is terminated by the
`excel` dialect's `\r\n`. -/
def fileContent (products : List Product) : String :=
  String.join ((fileLines products).map (fun l => l ++ "\r\n"))

/-- Models `write_to_csv`: for each category, in mapping order, the file
`<category>.csv` receives the header and one row per record. -/
def write_to_csv (products_data : List (String × List Product)) :
    List (String × String) :=
  products_data.map (fun nl => (nl.1 ++ ".csv", fileContent nl.2))

/-! ### Helper lemmas about characters, whitespace splitting and parsing -/

instance {ε α : Type} [DecidableEq ε] [DecidableEq α] : DecidableEq (Except ε α)
  | .ok a, .ok b =>
    if h : a = b then isTrue (by rw [h])
    else isFalse (by intro hh; injection hh; contradiction)
  | .ok _, .error _ => isFalse (by intro h; cases h)
  | .error _, .ok _ => isFalse (by intro h; cases h)
  | .error e, .error f =>
    if h : e = f then isTrue (by rw [h])
    else isFalse (by intro hh; injection hh; contradiction)

theorem digit_not_ws {c : Char} (h : c.isDigit = true) : c.isWhitespace = false := by
  by_contra hw
  rw [Bool.not_eq_false] at hw
  simp [Char.isWhitespace] at hw
  rcases hw with ((h1 | h1) | h1) | h1 <;> subst h1 <;> exact absurd h (by decide)

theorem dropWhile_eq_self_of_all (p : Char → Bool) (l : List Char)
    (h : ∀ c ∈ l, p c = false) : l.dropWhile p = l := by
  cases l with
  | nil => rfl
  | cons a l => simp [List.dropWhile_cons, h a (List.mem_cons_self a l)]

theorem stripWs_eq_self (cs : List Char) (h : ∀ c ∈ cs, c.isWhitespace = false) :
    stripWs cs = cs := by
  unfold stripWs
  rw [dropWhile_eq_self_of_all _ _ h]
  rw [dropWhile_eq_self_of_all _ _ (fun c hc => h c (List.mem_reverse.mp hc))]
  exact List.reverse_reverse cs

theorem takeWhile_append_all (p : Char → Bool) (l r : List Char)
    (h : ∀ c ∈ l, p c = true) :
    (l ++ r).takeWhile p = l ++ r.takeWhile p := by
  induction l with
  | nil => simp
  | cons a l ih =>
    simp only [List.cons_append, List.takeWhile_cons, h a (List.mem_cons_self a l),
      eq_self_iff_true, if_true]
    rw [ih (fun c hc => h c (List.mem_cons_of_mem a hc))]

theorem dropWhile_append_all (p : Char → Bool) (l r : List Char)
    (h : ∀ c ∈ l, p c = true) :
    (l ++ r).dropWhile p = r.dropWhile p := by
  induction l with
  | nil => simp
  | cons a l ih =>
    simp only [List.cons_append, List.dropWhile_cons, h a (List.mem_cons_self a l)]
    exact ih (fun c hc => h c (List.mem_cons_of_mem a hc))

theorem wsSplitAux_skipLeadingWs (w r : List Char)
    (hw : ∀ c ∈ w, c.isWhitespace = true) :
    wsSplitAux (w ++ r) [] = wsSplitAux r [] := by
  induction w with
  | nil => rfl
  | cons a w ih =>
    simp only [List.cons_append, wsSplitAux, hw a (List.mem_cons_self a w),
      List.isEmpty_nil, if_true]
    exact ih (fun c hc => hw c (List.mem_cons_of_mem a hc))

theorem wsSplitAux_token (t : List Char) (r acc : List Char)
    (ht : ∀ c ∈ t, c.isWhitespace = false) :
    wsSplitAux (t ++ r) acc = wsSplitAux r (t.reverse ++ acc) := by
  induction t generalizing acc with
  | nil => simp
  | cons a t ih =>
    simp only [List.cons_append, wsSplitAux, ht a (List.mem_cons_self a t),
      Bool.false_eq_true, if_false, List.append_eq]
    rw [ih (a :: acc) (fun c hc => ht c (List.mem_cons_of_mem a hc))]
    rw [List.reverse_cons, List.append_assoc]
    rfl

theorem wsSplit_head (w t r : List Char)
    (hw : ∀ c ∈ w, c.isWhitespace = true)
    (ht0 : t ≠ []) (ht : ∀ c ∈ t, c.isWhitespace = false)
    (hr : r = [] ∨ ∃ c r2, r = c :: r2 ∧ c.isWhitespace = true) :
    ∃ rest, wsSplitAux (w ++ (t ++ r)) [] = String.mk t :: rest := by
  rw [wsSplitAux_skipLeadingWs _ _ hw, wsSplitAux_token t r [] ht]
  rcases hr with rfl | ⟨c, r2, rfl, hc⟩
  · refine ⟨[], ?_⟩
    have hne : (t.reverse ++ []).isEmpty = false := by
      simp [List.isEmpty_iff, ht0]
    simp only [wsSplitAux, hne, Bool.false_eq_true, if_false]
    simp
  · refine ⟨wsSplitAux r2 [], ?_⟩
    have hne : (t.reverse ++ []).isEmpty = false := by
      simp [List.isEmpty_iff, ht0]
    simp only [wsSplitAux, hc, hne, if_true, Bool.false_eq_true, if_false]
    simp

theorem pyInt_digits (t : List Char) (ht0 : t ≠ []) (htd : ∀ c ∈ t, c.isDigit = true) :
    pyInt (String.mk t) = .ok ((digitsVal t : Int)) := by
  have hnws : ∀ c ∈ t, c.isWhitespace = false := fun c hc => digit_not_ws (htd c hc)
  cases t with
  | nil => exact absurd rfl ht0
  | cons c ds =>
    have hc := htd c (List.mem_cons_self c ds)
    have hdata : (String.mk (c :: ds)).data = c :: ds := rfl
    unfold pyInt
    rw [hdata, stripWs_eq_self _ hnws]
    have hcm : c ≠ '-' := by rintro rfl; exact absurd hc (by decide)
    have hcp : c ≠ '+' := by rintro rfl; exact absurd hc (by decide)
    simp only [hcm, hcp, if_false]
    unfold pyIntDigits
    rw [if_pos ⟨List.cons_ne_nil c ds, List.all_eq_true.mpr htd⟩]

theorem parseUnsignedFloat_decimal (intDs frac : List Char)
    (hi : intDs ≠ []) (hid : ∀ c ∈ intDs, c.isDigit = true)
    (hfd : ∀ c ∈ frac, c.isDigit = true) :
    parseUnsignedFloat (intDs ++ '.' :: frac) =
      some ((digitsVal intDs : ℚ) + (digitsVal frac : ℚ) / (10 : ℚ) ^ frac.length) := by
  unfold parseUnsignedFloat
  rw [takeWhile_append_all _ _ _ hid, dropWhile_append_all _ _ _ hid]
  simp only [List.takeWhile_cons, List.dropWhile_cons]
  have hdot : ('.').isDigit = false := by decide
  rw [hdot]
  simp only [Bool.false_eq_true, if_false, List.append_nil]
  rw [if_pos ⟨trivial, List.all_eq_true.mpr hfd, Or.inl hi⟩]

theorem pyFloat_decimal (intDs frac : List Char)
    (hi : intDs ≠ []) (hid : ∀ c ∈ intDs, c.isDigit = true)
    (hfd : ∀ c ∈ frac, c.isDigit = true) :
    pyFloat (String.mk (intDs ++ '.' :: frac)) =
      .ok ((digitsVal intDs : ℚ) + (digitsVal frac : ℚ) / (10 : ℚ) ^ frac.length) := by
  have hall : ∀ c ∈ intDs ++ '.' :: frac, c.isWhitespace = false := by
    intro c hc
    rcases List.mem_append.mp hc with h | h
    · exact digit_not_ws (hid c h)
    · rcases List.mem_cons.mp h with rfl | h
      · decide
      · exact digit_not_ws (hfd c h)
  cases intDs with
  | nil => exact absurd rfl hi
  | cons c ds =>
    have hc := hid c (List.mem_cons_self c ds)
    have hcm : c ≠ '-' := by rintro rfl; exact absurd hc (by decide)
    have hcp : c ≠ '+' := by rintro rfl; exact absurd hc (by decide)
    have hdata : (String.mk ((c :: ds) ++ '.' :: frac)).data = (c :: ds) ++ '.' :: frac := rfl
    unfold pyFloat
    rw [hdata, stripWs_eq_self _ hall, List.cons_append]
    simp only [hcm, hcp, if_false]
    rw [← List.cons_append, parseUnsignedFloat_decimal (c :: ds) frac hi hid hfd]

/-- C1: for a product element whose displayed price text is a currency
symbol followed by a printed decimal amount, `get_price` strips the symbol
and returns exactly the printed amount. -/
theorem get_price_decimal (p : ProductElement) (e : Elem) (intDs frac : List Char)
    (he : p.byClassName "price" = some e)
    (ht : e.text.data = '$' :: (intDs ++ '.' :: frac))
    (hi : intDs ≠ []) (hid : ∀ c ∈ intDs, c.isDigit = true)
    (_hf : frac ≠ []) (hfd : ∀ c ∈ frac, c.isDigit = true) :
    get_price p =
      .ok ((digitsVal intDs : ℚ) + (digitsVal frac : ℚ) / (10 : ℚ) ^ frac.length) := by
  have hnd : ∀ c ∈ intDs ++ '.' :: frac, c ≠ '$' := by
    intro c hc
    rcases List.mem_append.mp hc with h | h
    · rintro rfl; exact absurd (hid _ h) (by decide)
    · rcases List.mem_cons.mp h with rfl | h
      · decide
      · rintro rfl; exact absurd (hfd _ h) (by decide)
  have hrd : removeDollar e.text = String.mk (intDs ++ '.' :: frac) := by
    unfold removeDollar
    rw [ht, List.filter_cons]
    have : (decide ('$' ≠ '$')) = false := by decide
    rw [this]
    simp only [Bool.false_eq_true, if_false]
    rw [List.filter_eq_self.mpr (fun a ha => decide_eq_true (hnd a ha))]
  simp only [get_price, find_element, he, bind, Except.bind, hrd]
  exact pyFloat_decimal intDs frac hi hid hfd

/-- Concrete product card used to instantiate C1: its price element shows
the text `"$99.99"`. -/
def priceCard : ProductElement :=
  ⟨fun c => if c = "price" then some ⟨"$99.99", [], true⟩ else none, fun _ => []⟩

/-- Witness for C1 at the spec's own example: the text `"$99.99"` yields
the value 99.99. -/
theorem get_price_decimal_witness : get_price priceCard = .ok ((9999 : ℚ) / 100) := by
  have h := get_price_decimal priceCard ⟨"$99.99", [], true⟩ ['9', '9'] ['9', '9']
    rfl rfl (by decide) (by decide) (by decide) (by decide)
  have h99 : digitsVal ['9', '9'] = 99 := rfl
  rw [h, h99]
  norm_num

/-- C8: `get_rating` is exactly the number of elements the fixed CSS
selector `p:nth-of-type(2) > span` matches inside the product element. -/
theorem get_rating_counts_selector (pe : ProductElement) :
    get_rating pe = ((pe.byCss "p:nth-of-type(2) > span").length : Int) := rfl

/-- C2: `get_review_count` returns 0 when the `review-count` element is
absent, and the integer value of the leading whitespace-separated token of
its text when it is present and that token is a digit string. -/
theorem get_review_count_correct :
    (∀ p : ProductElement, p.byClassName "review-count" = none →
        get_review_count p = .ok 0) ∧
    (∀ (p : ProductElement) (e : Elem) (w t r : List Char),
        p.byClassName "review-count" = some e →
        e.text.data = w ++ (t ++ r) →
        (∀ c ∈ w, c.isWhitespace = true) →
        t ≠ [] → (∀ c ∈ t, c.isDigit = true) →
        (r = [] ∨ ∃ c r2, r = c :: r2 ∧ c.isWhitespace = true) →
        get_review_count p = .ok ((digitsVal t : Int))) := by
  constructor
  · intro p h
    simp [get_review_count, get_review_count_body, find_element, h, bind, Except.bind]
  · intro p e w t r he hdata hw ht0 htd hr
    have hnws : ∀ c ∈ t, c.isWhitespace = false := fun c hc => digit_not_ws (htd c hc)
    obtain ⟨rest, hsplit⟩ := wsSplit_head w t r hw ht0 hnws hr
    have hbody : get_review_count_body p = pyInt (String.mk t) := by
      simp only [get_review_count_body, find_element, he, bind, Except.bind, wsSplit, hdata,
        hsplit]
    simp only [get_review_count, hbody, pyInt_digits t ht0 htd]

/-- Concrete product card with no `review-count` element. -/
def rcAbsent : ProductElement := ⟨fun _ => none, fun _ => []⟩

/-- Concrete product card whose `review-count` element shows `" 14 reviews"`. -/
def rcPresent : ProductElement :=
  ⟨fun c => if c = "review-count" then some ⟨" 14 reviews", [], true⟩ else none, fun _ => []⟩

/-- Witness for C2: the absent element yields 0 and the text
`" 14 reviews"` yields 14. -/
theorem get_review_count_correct_witness :
    get_review_count rcAbsent = .ok 0 ∧ get_review_count rcPresent = .ok 14 := by
  refine ⟨get_review_count_correct.1 rcAbsent rfl, ?_⟩
  have h := get_review_count_correct.2 rcPresent ⟨" 14 reviews", [], true⟩
    [' '] ['1', '4'] (' ' :: "reviews".data) rfl rfl (by decide) (by decide) (by decide)
    (Or.inr ⟨' ', "reviews".data, rfl, by decide⟩)
  have h14 : ((digitsVal ['1', '4'] : Nat) : Int) = 14 := by decide
  rw [h14] at h
  exact h

/-- C10: when the `review-count` element is present but its text has no
token (empty or all whitespace) the `[0]` indexing raises `IndexError`; when
the leading token is not an integer literal `int()` raises `ValueError`;
neither is converted to the 0 default. -/
theorem get_review_count_raises :
    (∀ (p : ProductElement) (e : Elem),
        p.byClassName "review-count" = some e →
        (∀ c ∈ e.text.data, c.isWhitespace = true) →
        get_review_count p = .error .indexError) ∧
    (∀ (p : ProductElement) (e : Elem) (t r : List Char) (s : String),
        p.byClassName "review-count" = some e →
        e.text.data = t ++ r →
        t ≠ [] → (∀ c ∈ t, c.isWhitespace = false) →
        (r = [] ∨ ∃ c r2, r = c :: r2 ∧ c.isWhitespace = true) →
        pyInt (String.mk t) = .error (.valueError s) →
        get_review_count p = .error (.valueError s)) := by
  constructor
  · intro p e he hws
    have hsplit : wsSplit e.text = [] := by
      have : wsSplitAux (e.text.data ++ []) [] = wsSplitAux [] [] :=
        wsSplitAux_skipLeadingWs e.text.data [] hws
      simpa [wsSplit] using this
    simp [get_review_count, get_review_count_body, find_element, he, bind, Except.bind, hsplit]
  · intro p e t r s he hdata ht0 hnws hr hpy
    obtain ⟨rest, hsplit⟩ := wsSplit_head [] t r (by simp) ht0 hnws hr
    have hsplit2 : wsSplitAux (t ++ r) [] = String.mk t :: rest := by simpa using hsplit
    have hbody : get_review_count_body p = pyInt (String.mk t) := by
      simp only [get_review_count_body, find_element, he, bind, Except.bind, wsSplit, hdata,
        hsplit2]
    simp only [get_review_count, hbody, hpy]

/-- Concrete product card whose `review-count` element has empty text. -/
def rcEmptyText : ProductElement :=
  ⟨fun c => if c = "review-count" then some ⟨"", [], true⟩ else none, fun _ => []⟩

/-- Concrete product card whose `review-count` element shows
`"abc reviews"`. -/
def rcBadToken : ProductElement :=
  ⟨fun c => if c = "review-count" then some ⟨"abc reviews", [], true⟩ else none, fun _ => []⟩

/-- Witness for C10: empty text raises `IndexError`, a non-numeric leading
token raises `ValueError`. -/
theorem get_review_count_raises_witness :
    get_review_count rcEmptyText = .error .indexError ∧
    get_review_count rcBadToken = .error (.valueError "abc") := by
  refine ⟨get_review_count_raises.1 rcEmptyText ⟨"", [], true⟩ rfl (by decide), ?_⟩
  exact get_review_count_raises.2 rcBadToken ⟨"abc reviews", [], true⟩
    ['a', 'b', 'c'] (' ' :: "reviews".data) "abc" rfl rfl (by decide) (by decide)
    (Or.inr ⟨' ', "reviews".data, rfl, by decide⟩) (by decide)

theorem accept_cookies_never_raises (s : PageState) : accept_cookies_if_asked s = .ok () := by
  cases h : s.byClassName "acceptCookies" <;>
    simp [accept_cookies_if_asked, find_element, h]

theorem has_next_page_eq (s : PageState) : has_next_page s = .ok (hasNextPageB s) := by
  cases h : s.byClassName "ecomerce-items-scroll-more" <;>
    simp [has_next_page, hasNextPageB, find_element, h]

theorem mapExcept_error {α β : Type} (f : α → Except ScrapeError β) (l : List α)
    (h : ∃ a ∈ l, ∃ e, f a = .error e) : ∃ e, mapExcept f l = .error e := by
  induction l with
  | nil => rcases h with ⟨a, ha, _⟩; cases ha
  | cons b l ih =>
    cases hb : f b with
    | error e => exact ⟨e, by simp [mapExcept, hb, bind, Except.bind]⟩
    | ok v =>
      rcases h with ⟨a, ha, e, hae⟩
      rcases List.mem_cons.mp ha with rfl | ha2
      · rw [hb] at hae; cases hae
      · rcases ih ⟨a, ha2, e, hae⟩ with ⟨e2, he2⟩
        exact ⟨e2, by simp [mapExcept, hb, bind, Except.bind, he2]⟩

theorem extractProduct_missing_title (pe : ProductElement)
    (h : pe.byClassName "title" = none) :
    extractProduct pe = .error (.noSuchElement "title") := by
  simp [extractProduct, get_title, find_element, h, bind, Except.bind]

/-- C3: absence of an optional element (cookie banner, pagination control,
review count) is swallowed into a default or no-op, while absence of a
required element (title, price, description) raises an element-not-found
error, and such an error from a product card propagates out of
`parse_products_on_page`. -/
theorem failure_policy :
    (∀ s : PageState, s.byClassName "acceptCookies" = none →
        accept_cookies_if_asked s = .ok ()) ∧
    (∀ s : PageState, s.byClassName "ecomerce-items-scroll-more" = none →
        has_next_page s = .ok false) ∧
    (∀ p : ProductElement, p.byClassName "review-count" = none →
        get_review_count p = .ok 0) ∧
    (∀ p : ProductElement, p.byClassName "title" = none →
        get_title p = .error (.noSuchElement "title")) ∧
    (∀ p : ProductElement, p.byClassName "price" = none →
        get_price p = .error (.noSuchElement "price")) ∧
    (∀ p : ProductElement, p.byClassName "description" = none →
        get_description p = .error (.noSuchElement "description")) ∧
    (∀ (step : PageState → PageState) (fuel : Nat) (s s2 : PageState),
        paginationLoop step fuel s = some s2 →
        (∃ pe ∈ s2.thumbnails, pe.byClassName "title" = none) →
        ∃ err, parse_products_on_page step fuel s = some (.error err)) := by
  refine ⟨?_, ?_, ?_, ?_, ?_, ?_, ?_⟩
  · intro s h; exact accept_cookies_never_raises s
  · intro s h; rw [has_next_page_eq]; simp [hasNextPageB, h]
  · intro p h
    simp [get_review_count, get_review_count_body, find_element, h, bind, Except.bind]
  · intro p h; simp [get_title, find_element, h, bind, Except.bind]
  · intro p h; simp [get_price, find_element, h, bind, Except.bind]
  · intro p h; simp [get_description, find_element, h, bind, Except.bind]
  · intro step fuel s s2 hloop ⟨pe, hpe, hnone⟩
    obtain ⟨err, herr⟩ :=
      mapExcept_error extractProduct s2.thumbnails
        ⟨pe, hpe, _, extractProduct_missing_title pe hnone⟩
    exact ⟨err, by simp [parse_products_on_page, accept_cookies_never_raises s, hloop, herr]⟩

/-- Concrete page with no optional elements at all. -/
def noElemPage : PageState := ⟨fun _ => none, []⟩

/-- Concrete product card with none of the queried sub-elements. -/
def noElemCard : ProductElement := ⟨fun _ => none, fun _ => []⟩

/-- Concrete page holding one product card that lacks its title element. -/
def titlelessPage : PageState := ⟨fun _ => none, [noElemCard]⟩

/-- Witness for C3 at concrete pages and cards. -/
theorem failure_policy_witness :
    accept_cookies_if_asked noElemPage = .ok () ∧
    has_next_page noElemPage = .ok false ∧
    get_review_count noElemCard = .ok 0 ∧
    get_title noElemCard = .error (.noSuchElement "title") ∧
    get_price noElemCard = .error (.noSuchElement "price") ∧
    get_description noElemCard = .error (.noSuchElement "description") ∧
    (∃ err, parse_products_on_page id 0 titlelessPage = some (.error err)) := by
  obtain ⟨h1, h2, h3, h4, h5, h6, h7⟩ := failure_policy
  exact ⟨h1 noElemPage rfl, h2 noElemPage rfl, h3 noElemCard rfl, h4 noElemCard rfl,
    h5 noElemCard rfl, h6 noElemCard rfl,
    h7 id 0 titlelessPage titlelessPage rfl
      ⟨noElemCard, List.mem_cons_self noElemCard [], rfl⟩⟩

theorem paginationLoop_exit (step : PageState → PageState) (k : Nat) :
    ∀ (fuel : Nat) (s0 : PageState),
      hasNextPageB (step^[k] s0) = false →
      (∀ j, j < k → hasNextPageB (step^[j] s0) = true) →
      k ≤ fuel →
      paginationLoop step fuel s0 = some (step^[k] s0) := by
  induction k with
  | zero =>
    intro fuel s0 hk _ _
    rw [Function.iterate_zero_apply] at hk ⊢
    cases fuel <;> simp [paginationLoop, hk]
  | succ k ih =>
    intro fuel s0 hk hlt hfuel
    have h0 : hasNextPageB s0 = true := by
      have := hlt 0 (Nat.succ_pos k)
      rwa [Function.iterate_zero_apply] at this
    obtain ⟨f, rfl⟩ : ∃ f, fuel = f + 1 := ⟨fuel - 1, by omega⟩
    have hnav : (navigate_to_next_page step s0).2 = step s0 := by
      cases hb : s0.byClassName "ecomerce-items-scroll-more" with
      | none => simp [hasNextPageB, hb] at h0
      | some b => simp [navigate_to_next_page, hb]
    have hk2 : hasNextPageB (step^[k] (step s0)) = false := by
      rw [← Function.iterate_succ_apply]; exact hk
    have hlt2 : ∀ j, j < k → hasNextPageB (step^[j] (step s0)) = true := by
      intro j hj
      rw [← Function.iterate_succ_apply]
      exact hlt (j + 1) (Nat.succ_lt_succ hj)
    have htail := ih f (step s0) hk2 hlt2 (Nat.succ_le_succ_iff.mp hfuel)
    simp only [paginationLoop, h0, if_true, hnav, htail]
    rw [Function.iterate_succ_apply]

/-- C5: if the `j`-th click-state still shows the control for all `j < k`
and the `k`-th does not, the pagination loop runs exactly `k` iterations,
halts at the first state where `has_next_page` is false, and the product
elements are read once from that final state. -/
theorem parse_pagination (step : PageState → PageState) (k fuel : Nat) (s0 : PageState)
    (hk : hasNextPageB (step^[k] s0) = false)
    (hlt : ∀ j, j < k → hasNextPageB (step^[j] s0) = true)
    (hfuel : k ≤ fuel) :
    paginationLoop step fuel s0 = some (step^[k] s0) ∧
    has_next_page (step^[k] s0) = .ok false ∧
    (∀ j, j < k → has_next_page (step^[j] s0) = .ok true) ∧
    parse_products_on_page step fuel s0 =
      some (mapExcept extractProduct (step^[k] s0).thumbnails) := by
  have hloop := paginationLoop_exit step k fuel s0 hk hlt hfuel
  refine ⟨hloop, ?_, ?_, ?_⟩
  · rw [has_next_page_eq, hk]
  · intro j hj; rw [has_next_page_eq, hlt j hj]
  · simp [parse_products_on_page, accept_cookies_never_raises s0, hloop]

/-- Concrete page whose "load more" control is present and displayed. -/
def pageMore : PageState :=
  ⟨fun c => if c = "ecomerce-items-scroll-more" then some ⟨"", [], true⟩ else none, []⟩

/-- Concrete page with the control gone and no products. -/
def pageDone : PageState := ⟨fun _ => none, []⟩

/-- Concrete click effect: the single click exhausts the pagination. -/
def stepOnce : PageState → PageState := fun _ => pageDone

/-- Witness for C5: one click is needed and taken, then the loop halts. -/
theorem parse_pagination_witness :
    paginationLoop stepOnce 1 pageMore = some pageDone ∧
    has_next_page pageDone = .ok false ∧
    has_next_page pageMore = .ok true ∧
    parse_products_on_page stepOnce 1 pageMore = some (.ok []) := by
  have h := parse_pagination stepOnce 1 1 pageMore rfl
    (fun j hj => by
      have hj0 : j = 0 := Nat.lt_one_iff.mp hj
      subst hj0; rfl)
    (Nat.le_refl 1)
  obtain ⟨h1, h2, h3, h4⟩ := h
  have hit : stepOnce^[1] pageMore = pageDone := rfl
  rw [hit] at h1 h2 h4
  refine ⟨h1, h2, ?_, h4⟩
  have := h3 0 Nat.zero_lt_one
  rwa [Function.iterate_zero_apply] at this

/-- Concrete product card whose second paragraph holds six marker `span`
elements; every required element is present, so extraction succeeds. -/
def sixStarCard : ProductElement :=
  ⟨fun c =>
      if c = "title" then some ⟨"", [("title", "Phone X")], true⟩
      else if c = "price" then some ⟨"$10.99", [], true⟩
      else if c = "description" then some ⟨"A phone", [], true⟩
      else none,
   fun sel =>
      if sel = "p:nth-of-type(2) > span" then List.replicate 6 ⟨"", [], true⟩ else []⟩

/-- C4 counterexample: nothing in the code bounds the rating by 5 — a card
with six marker elements extracts to a record whose rating is 6. -/
theorem rating_range_counterexample :
    (extractProduct sixStarCard).map Product.rating = .ok 6 ∧
    ¬ ((6 : Int) ≤ 5) := by
  constructor
  · rfl
  · decide

/-- C4 (amended): the rating of every successfully extracted record equals
the number of elements matched by the fixed selector, and is therefore
non-negative; the code enforces no upper bound. -/
theorem rating_nonneg_eq_count (pe : ProductElement) (r : Product)
    (h : extractProduct pe = .ok r) :
    r.rating = ((pe.byCss "p:nth-of-type(2) > span").length : Int) ∧ 0 ≤ r.rating := by
  cases ht : get_title pe with
  | error e => simp [extractProduct, ht, bind, Except.bind] at h
  | ok t =>
    cases hp : get_price pe with
    | error e => simp [extractProduct, ht, hp, bind, Except.bind] at h
    | ok q =>
      cases hd : get_description pe with
      | error e => simp [extractProduct, ht, hp, hd, bind, Except.bind] at h
      | ok d =>
        cases hrc : get_review_count pe with
        | error e => simp [extractProduct, ht, hp, hd, hrc, bind, Except.bind] at h
        | ok n =>
          have hr : r = ⟨t, d, q, get_rating pe, n⟩ := by
            simp only [extractProduct, ht, hp, hd, hrc, bind, Except.bind, pure,
              Except.pure, Except.ok.injEq] at h
            exact h.symm
          subst hr
          exact ⟨rfl, Int.natCast_nonneg _⟩

/-- Witness for C4 (amended) at the six-marker card. -/
theorem rating_nonneg_eq_count_witness :
    ((6 : Int) = ((sixStarCard.byCss "p:nth-of-type(2) > span").length : Int)) ∧
    (0 : Int) ≤ 6 := by
  have hr : extractProduct sixStarCard =
      .ok ⟨some "Phone X", "A phone",
        (digitsVal ['1', '0'] : ℚ) + (digitsVal ['9', '9'] : ℚ) / (10 : ℚ) ^ 2, 6, 0⟩ := rfl
  have h := rating_nonneg_eq_count sixStarCard _ hr
  simpa using h

theorem alookup_eq_of_perm {d₁ d₂ : List (String × String)} (h : d₁.Perm d₂) :
    (d₁.map Prod.fst).Nodup → ∀ k, alookup k d₁ = alookup k d₂ := by
  induction h with
  | nil => intro _ k; rfl
  | cons a h ih =>
    intro hnd k
    obtain ⟨x, v⟩ := a
    rw [List.map_cons] at hnd
    have hnd2 : _ := List.Nodup.of_cons hnd
    by_cases hx : x = k <;> simp [alookup, hx, ih hnd2 k]
  | swap a b l =>
    intro hnd k
    obtain ⟨x, v⟩ := a
    obtain ⟨y, w⟩ := b
    rw [List.map_cons, List.map_cons] at hnd
    have hy := List.Nodup.not_mem hnd
    have hxy : y ≠ x := fun hc => hy (hc ▸ List.mem_cons_self _ _)
    by_cases h1 : y = k <;> by_cases h2 : x = k
    · exact absurd (h1.trans h2.symm) hxy
    · simp [alookup, h1, h2]
    · simp [alookup, h1, h2]
    · simp [alookup, h1, h2]
  | trans h1 h2 ih1 ih2 =>
    intro hnd k
    have hnd2 := ((h1.map Prod.fst).nodup_iff).mp hnd
    exact (ih1 hnd k).trans (ih2 hnd2 k)

/-- C6: the header row is exactly
`title,description,price,rating,num_of_reviews`; each category's file is in
the output under its `<category>.csv` name; every record's row lists its
five cells in the fixed dataclass field order; and the row depends only on
the dict contents, not on the order the fields were inserted. -/
theorem write_to_csv_field_order :
    headerLine = "title,description,price,rating,num_of_reviews" ∧
    (∀ (data : List (String × List Product)) (name : String) (ps : List Product),
        (name, ps) ∈ data →
        (name ++ ".csv", fileContent ps) ∈ write_to_csv data) ∧
    (∀ ps : List Product,
        fileLines ps = "title,description,price,rating,num_of_reviews" ::
          ps.map (fun p => dictWriterRow PRODUCT_FIELDS (productDict p))) ∧
    (∀ p : Product,
        dictWriterRow PRODUCT_FIELDS (productDict p) =
          String.intercalate ","
            [csvQuote (cellOfOpt p.title), csvQuote p.description,
             csvQuote (toString p.price), csvQuote (toString p.rating),
             csvQuote (toString p.num_of_reviews)]) ∧
    (∀ (p : Product) (d : List (String × String)),
        d.Perm (productDict p) →
        dictWriterRow PRODUCT_FIELDS d = dictWriterRow PRODUCT_FIELDS (productDict p)) := by
  refine ⟨by decide, ?_, ?_, ?_, ?_⟩
  · intro data name ps hm
    exact List.mem_map_of_mem (fun nl => (nl.1 ++ ".csv", fileContent nl.2)) hm
  · intro ps
    rfl
  · intro p
    rfl
  · intro p d hperm
    have hnd : (d.map Prod.fst).Nodup := by
      have hmap := hperm.map Prod.fst
      have hnd0 : (List.map Prod.fst (productDict p)).Nodup := by
        rw [show List.map Prod.fst (productDict p) = PRODUCT_FIELDS from rfl]
        decide
      exact (hmap.nodup_iff).mpr hnd0
    unfold dictWriterRow
    exact congrArg (String.intercalate ",")
      (List.map_congr_left (fun f _ => by rw [alookup_eq_of_perm hperm hnd f]))

/-- Concrete record used to instantiate C6. -/
def wProd : Product := ⟨some "T", "D", (5 : ℚ) / 2, 3, 7⟩

/-- Witness for C6: the file of the `home` category is in the output, and a
reversed field dict produces the identical row. -/
theorem write_to_csv_field_order_witness :
    ("home" ++ ".csv", fileContent [wProd]) ∈ write_to_csv [("home", [wProd])] ∧
    dictWriterRow PRODUCT_FIELDS ((productDict wProd).reverse) =
      dictWriterRow PRODUCT_FIELDS (productDict wProd) := by
  exact ⟨write_to_csv_field_order.2.1 [("home", [wProd])] "home" [wProd] (by simp),
    write_to_csv_field_order.2.2.2.2 wProd (productDict wProd).reverse
      (List.reverse_perm _)⟩

/-- C7: a category with zero records gets a file holding exactly the header
row (with its `\r\n` terminator) and nothing else. -/
theorem empty_category_header_only :
    fileContent [] = "title,description,price,rating,num_of_reviews\r\n" ∧
    (∀ (data : List (String × List Product)) (name : String),
        (name, ([] : List Product)) ∈ data →
        (name ++ ".csv", "title,description,price,rating,num_of_reviews\r\n") ∈
          write_to_csv data) := by
  have hc : fileContent [] = "title,description,price,rating,num_of_reviews\r\n" := by
    decide
  refine ⟨hc, fun data name hm => ?_⟩
  have hmem := List.mem_map_of_mem (fun nl => (nl.1 ++ ".csv", fileContent nl.2)) hm
  rw [show ((fun nl => (nl.1 ++ ".csv", fileContent nl.2))
      ((name, ([] : List Product)))) = (name ++ ".csv", fileContent []) from rfl, hc] at hmem
  exact hmem

/-- Witness for C7 at a one-category mapping with an empty record list. -/
theorem empty_category_header_only_witness :
    ("touch" ++ ".csv", "title,description,price,rating,num_of_reviews\r\n") ∈
      write_to_csv [("touch", ([] : List Product))] := by
  exact empty_category_header_only.2 [("touch", [])] "touch" (by simp)

theorem scrapeBody_trace_navigate (parse : String → Except ScrapeError (List Product))
    (l : List (String × String)) :
    ∀ e ∈ (scrapeBody parse l).trace, ∃ u, e = .navigate u := by
  induction l with
  | nil => intro e he; cases he
  | cons a l ih =>
    obtain ⟨name, url⟩ := a
    intro e he
    cases hp : parse url with
    | error err =>
      simp only [scrapeBody, hp] at he
      rcases List.mem_singleton.mp he with rfl
      exact ⟨url, rfl⟩
    | ok ps =>
      simp only [scrapeBody, hp, List.mem_cons] at he
      rcases he with rfl | he2
      · exact ⟨url, rfl⟩
      · exact ih e he2

/-- C9: for every outcome of the per-page parses — all succeeding or any of
them raising — the run of `scrape_products` opens the session first and
quits it exactly once, as its last action. -/
theorem session_always_closed (parse : String → Except ScrapeError (List Product)) :
    (scrape_products parse).trace.count .quitSession = 1 ∧
    (scrape_products parse).trace.getLast? = some .quitSession ∧
    (scrape_products parse).trace.head? = some .openSession := by
  have hshape : (scrape_products parse).trace =
      .openSession :: ((scrapeBody parse PAGE_URLS).trace ++ [.quitSession]) := rfl
  have hbody : (scrapeBody parse PAGE_URLS).trace.count Event.quitSession = 0 := by
    refine List.count_eq_zero.mpr (fun hmem => ?_)
    rcases scrapeBody_trace_navigate parse PAGE_URLS _ hmem with ⟨u, hu⟩
    cases hu
  refine ⟨?_, ?_, by rw [hshape]; rfl⟩
  · rw [hshape]
    simp [List.count_cons, List.count_append, hbody]
  · rw [hshape, show (Event.openSession :: ((scrapeBody parse PAGE_URLS).trace ++
      [Event.quitSession])) = ((Event.openSession :: (scrapeBody parse PAGE_URLS).trace) ++
      [Event.quitSession]) from rfl]
    exact List.getLast?_concat _

end EcommerceScraping
